import Mathlib

/-!
Verification of the wallet RPC fee/funding logic of `src/wallet/rpcwallet.cpp`:
the fee-bump engine (`bumpfee`), the sweep engine (`sweepprivkeys`), the
funding orchestrator (`fundrawtransaction`) and the coin-lock registry
(`lockunspent` / `listlockunspent`).

The embedding keeps the control flow and the comparison/branch structure of the
C++ source.  Collaborator services that are declared but not defined in the
source file (coin selection, signing, fee estimation, the wallet record index,
`CFeeRate`, dust thresholds) are modelled from the specification as opaque
parameters or as exact arithmetic, as documented on each definition.
Monetary amounts in the fee-bump engine are rationals so that the
specification's total relationship `fee = rate × size` is exact; amounts in the
sweep engine are integers, matching the integer `CAmount` arithmetic its
convergence loop depends on.
-/

namespace WalletRpc

/-- A transaction input: a reference to a previous output (txid and index), a
signature script and a sequence number, as in the `CTxIn` values used by
`bumpfee`.  Scripts are abstracted to identifiers. -/
structure TxIn where
  prevoutHash : Nat
  prevoutN : Nat
  scriptSig : Nat
  nSequence : Nat
deriving DecidableEq

/-- A transaction output: a monetary amount and a spending-condition script,
as in `CTxOut`.  The script is abstracted to an identifier. -/
structure TxOut where
  nValue : Rat
  scriptPubKey : Nat
deriving DecidableEq

/-- A transaction: ordered inputs and ordered outputs. -/
structure Tx where
  vin : List TxIn
  vout : List TxOut
deriving DecidableEq

/-- A wallet transaction record: the transaction plus the wallet-local
metadata `bumpfee` reads (confirmation depth, the replaced-by / replaces
annotations kept in `mapValue`). -/
structure WalletTx where
  tx : Tx
  depth : Int
  replacedBy : Option Nat
  replaces : Option Nat
deriving DecidableEq

/-- Modelled from the spec: `SignalsOptInRBF` is declared outside this file;
the spec says a transaction opts in "per its input sequence-number signaling
rule" (BIP 125): some input carries a sequence number below 0xfffffffe. -/
def SignalsOptInRBF (t : Tx) : Bool :=
  t.vin.any (fun i => i.nSequence < 0xfffffffe)

/-- Modelled from the spec: the `CFeeRate(fee, size)` constructor is declared
outside this file; the spec's FeeRate satisfies `fee = rate × size`, so the
rate derived from a paid fee is the exact quotient (guarded on positive size,
mirroring the constructor's `nSize > 0` guard). -/
def mkFeeRate (fee size : Rat) : Rat :=
  if 0 < size then fee / size else 0

/-- Modelled from the spec: `CFeeRate::GetFee` is declared outside this file;
the spec's total relationship is `fee = rate × size`. -/
def getFee (rate size : Rat) : Rat := rate * size

/-- Modelled from the spec: `CTransaction::GetValueOut` is declared outside
this file; the old fee is "(sum of wallet-spendable input values) − (sum of
output values)", so this is the sum of the output values. -/
def txValueOut (t : Tx) : Rat :=
  t.vout.foldr (fun o acc => o.nValue + acc) 0

/-- Outcome of the signer service for one input of the bumped transaction:
the wallet may not know the previous output (the input is skipped, mirroring
the `mi != mapWallet.end() && prevout.n < vout.size()` guard), signing may
fail, or it produces a signature script. -/
inductive SignOutcome where
  | skip
  | fail
  | ok (sig : Nat)
deriving DecidableEq

/-- The environment of one `bumpfee` call: the wallet predicates, configured
rates and external services the source reads.  All of them are declared
outside this file and are modelled from the spec as opaque parameters. -/
structure BumpEnv where
  isChange : TxOut → Bool
  isAllFromMe : Tx → Bool
  hasWalletSpend : Bool
  mempoolHasDescendants : Bool
  vsize : Tx → Rat
  debit : Tx → Rat
  payTxFee : Rat
  smartFee : Rat
  fallbackFee : Rat
  minRelayFee : Rat
  mempoolMinFee : Rat
  maxTxFee : Rat
  dustThreshold : Nat → Rat
  sign : Nat → SignOutcome
  commitOk : Bool
  newTxid : Nat

/-- The distinct failures of `bumpfee`, one per `throw` site of the source;
`undefinedVoutAccess` marks the out-of-range `wtx.vout[nOutput]` read the
source performs when the bounds check passes an index equal to the output
count, and `assertDeltaViolated` marks the `assert(nDelta > 0)` aborting. -/
inductive BumpErr where
  | invalidTxid
  | txMined
  | notReplaceable
  | alreadyBumped
  | foreignInputs
  | outputOutOfBounds
  | undefinedVoutAccess
  | selectedNotChange
  | multipleChange
  | noChange
  | invalidTotalFeeNonPositive
  | invalidTotalFeeAboveMax
  | totalFeeTooLow
  | descendantInWallet
  | descendantInMempool
  | feeTooLowForMempool
  | assertDeltaViolated
  | changeTooSmall
  | signFailed
  | commitRejected
deriving DecidableEq

/-- The change-output scan of `bumpfee` (source lines 2979-2987): walk the
outputs; a second change output fails at once, no change output fails at the
end, otherwise the unique change index is returned. -/
def findChangeAux (isChange : TxOut → Bool) :
    List TxOut → Nat → Option Nat → Except BumpErr Nat
  | [], _, none => .error .noChange
  | [], _, some n => .ok n
  | o :: rest, i, acc =>
    if isChange o then
      match acc with
      | some _ => .error .multipleChange
      | none => findChangeAux isChange rest (i + 1) (some i)
    else findChangeAux isChange rest (i + 1) acc

/-- Change-output determination of `bumpfee` (source lines 2965-2989).  With
an explicit index the source checks `nOutput < 0 || nOutput > vout.size()`
(note: `>` rather than `>=`) and then reads `wtx.vout[nOutput]`; an index
equal to the output count passes the check and the read is out of range,
modelled by `undefinedVoutAccess`. -/
def resolveChangeOutput (env : BumpEnv) (t : Tx) : Option Int → Except BumpErr Nat
  | some n =>
    if n < 0 ∨ n > (t.vout.length : Int) then .error .outputOutOfBounds
    else
      match t.vout.get? n.toNat with
      | none => .error .undefinedVoutAccess
      | some o => if env.isChange o then .ok n.toNat else .error .selectedNotChange
  | none => findChangeAux env.isChange t.vout 0 none

/-- The `totalFee` option validation of `bumpfee` (source lines 3017-3023):
absent means zero; a supplied value must be positive and at most the
configured maximum transaction fee. -/
def validateTotalFee (maxTxFee : Rat) : Option Rat → Except BumpErr Rat
  | none => .ok 0
  | some tf =>
    if tf ≤ 0 then .error .invalidTotalFeeNonPositive
    else if tf > maxTxFee then .error .invalidTotalFeeAboveMax
    else .ok tf

/-- The candidate rate of the automatic path of `bumpfee` (source lines
3054-3059): the configured `payTxFee` if nonzero, otherwise the smart-fee
estimate if nonzero, otherwise the fallback rate. -/
def bumpRateCandidate (payTxFee smartFee fallbackFee : Rat) : Rat :=
  if (if payTxFee = 0 then smartFee else payTxFee) = 0 then fallbackFee
  else (if payTxFee = 0 then smartFee else payTxFee)

/-- The monotonic-rate floor of `bumpfee` (source lines 3061-3063): the
candidate rate, raised to `old rate + minimum relay rate` when below it. -/
def bumpNewRate (oldFeeRate minRelayFee payTxFee smartFee fallbackFee : Rat) : Rat :=
  if bumpRateCandidate payTxFee smartFee fallbackFee < oldFeeRate + minRelayFee then
    oldFeeRate + minRelayFee
  else bumpRateCandidate payTxFee smartFee fallbackFee

/-- The fee-determination step of `bumpfee` (source lines 3046-3066).  With an
explicit total fee it is rejected when below `oldRate·S' + relayRate·S'` and
used directly otherwise; without one the floored automatic rate is used and
the fee is that rate times `S'`.  Returns the pair (new fee, new fee-rate). -/
def determineNewFee (oldFeeRate minRelayFee payTxFee smartFee fallbackFee
    txSize maxNewTxSize totalFee : Rat) : Except BumpErr (Rat × Rat) :=
  if 0 < totalFee then
    if totalFee < getFee oldFeeRate maxNewTxSize + getFee minRelayFee maxNewTxSize then
      .error .totalFeeTooLow
    else .ok (totalFee, mkFeeRate totalFee txSize)
  else
    .ok (getFee (bumpNewRate oldFeeRate minRelayFee payTxFee smartFee fallbackFee) maxNewTxSize,
      bumpNewRate oldFeeRate minRelayFee payTxFee smartFee fallbackFee)

/-- The change-adjustment step of `bumpfee` (source lines 3087-3093): the
delta is subtracted from the designated output; when the reduced value is at
most its dust threshold the output is erased and its remaining value is
returned as an addition to the fee, otherwise the reduced output is kept.
Returns (fee addition, new output list). -/
def bumpAdjustChange (vout : List TxOut) (n : Nat) (delta : Rat)
    (dust : Nat → Rat) : Rat × List TxOut :=
  match vout.get? n with
  | none => (0, vout)
  | some o =>
    let v := o.nValue - delta
    if v ≤ dust o.scriptPubKey then (v, vout.eraseIdx n)
    else (0, vout.set n ⟨v, o.scriptPubKey⟩)

/-- The signing pass of `bumpfee` (source lines 3096-3108): each input either
keeps its script (previous output unknown to the wallet), fails the whole
call, or gets a fresh signature script; previous outpoints and sequence
numbers are not touched. -/
def signInputsAux (sign : Nat → SignOutcome) :
    List TxIn → Nat → Except BumpErr (List TxIn)
  | [], _ => .ok []
  | inp :: rest, i =>
    match sign i with
    | .fail => .error .signFailed
    | .skip =>
      match signInputsAux sign rest (i + 1) with
      | .error e => .error e
      | .ok l => .ok (inp :: l)
    | .ok s =>
      match signInputsAux sign rest (i + 1) with
      | .error e => .error e
      | .ok l => .ok ({ inp with scriptSig := s } :: l)

/-- The wallet transaction record index (`mapWallet`), as a partial map from
transaction ids to records. -/
def Wallet : Type := Nat → Option WalletTx

/-- Point update of the record index. -/
def walletUpdate (w : Wallet) (h : Nat) (v : WalletTx) : Wallet :=
  fun k => if k = h then some v else w k

/-- The values of a successful `bumpfee`: the new transaction and its id, the
reported old and new fees, the intermediate fee-rates and delta, and the
updated wallet (new record committed, original marked replaced). -/
structure BumpResult where
  newTxid : Nat
  newTx : Tx
  oldFee : Rat
  newFee : Rat
  oldFeeRate : Rat
  newFeeRate : Rat
  delta : Rat
  wallet : Wallet

/-- The old fee of the transaction being bumped (source line 3041):
wallet-spendable debit minus the summed output values. -/
def bumpOldFee (env : BumpEnv) (t : Tx) : Rat :=
  env.debit t - txValueOut t

/-- The commit stage of `bumpfee` (source lines 3110-3126): the bumped
transaction (re-signed inputs, dust-adjusted outputs) is committed under the
new txid, and the original record is marked replaced. -/
def bumpAssemble (env : BumpEnv) (w : Wallet) (hash : Nat) (wtx : WalletTx)
    (nOutput : Nat) (nNewFee nNewFeeRate : Rat) (newVin : List TxIn) :
    Except BumpErr BumpResult :=
  if ¬ env.commitOk then .error .commitRejected
  else
    match walletUpdate w env.newTxid
        ⟨⟨newVin, (bumpAdjustChange wtx.tx.vout nOutput
          (nNewFee - bumpOldFee env wtx.tx) env.dustThreshold).2⟩,
          0, none, some hash⟩ hash with
    | none => .error .invalidTxid
    | some orig =>
      .ok ⟨env.newTxid,
        ⟨newVin, (bumpAdjustChange wtx.tx.vout nOutput
          (nNewFee - bumpOldFee env wtx.tx) env.dustThreshold).2⟩,
        bumpOldFee env wtx.tx,
        nNewFee + (bumpAdjustChange wtx.tx.vout nOutput
          (nNewFee - bumpOldFee env wtx.tx) env.dustThreshold).1,
        mkFeeRate (bumpOldFee env wtx.tx) (env.vsize wtx.tx),
        nNewFeeRate,
        nNewFee - bumpOldFee env wtx.tx,
        walletUpdate (walletUpdate w env.newTxid
          ⟨⟨newVin, (bumpAdjustChange wtx.tx.vout nOutput
            (nNewFee - bumpOldFee env wtx.tx) env.dustThreshold).2⟩,
            0, none, some hash⟩) hash
          { orig with replacedBy := some env.newTxid }⟩

/-- The tail of `bumpfee` after the new fee is determined (source lines
3068-3108): mempool-floor check, the positivity assertion on the delta, the
change-absorption check, the dust adjustment and the re-signing pass. -/
def bumpFinish (env : BumpEnv) (w : Wallet) (hash : Nat) (wtx : WalletTx)
    (nOutput : Nat) (nNewFee nNewFeeRate : Rat) : Except BumpErr BumpResult :=
  if nNewFeeRate < env.mempoolMinFee then .error .feeTooLowForMempool
  else if ¬ (0 < nNewFee - bumpOldFee env wtx.tx) then .error .assertDeltaViolated
  else
    match wtx.tx.vout.get? nOutput with
    | none => .error .undefinedVoutAccess
    | some poutput =>
      if poutput.nValue < nNewFee - bumpOldFee env wtx.tx then .error .changeTooSmall
      else
        match signInputsAux env.sign wtx.tx.vin 0 with
        | .error e => .error e
        | .ok newVin => bumpAssemble env w hash wtx nOutput nNewFee nNewFeeRate newVin

/-- The `bumpfee` RPC (source lines 2903-3127), with parameter parsing
abstracted into the explicit change-index and total-fee options.  The checks
appear in source order: wallet lookup, depth, BIP 125 signalling, the
replaced-by annotation, foreign inputs, change-output determination, option
validation, descendant checks, fee determination, and `bumpFinish`. -/
def bumpfee (env : BumpEnv) (w : Wallet) (hash : Nat) (outIdx : Option Int)
    (totalFeeOpt : Option Rat) : Except BumpErr BumpResult :=
  match w hash with
  | none => .error .invalidTxid
  | some wtx =>
    if wtx.depth ≠ 0 then .error .txMined
    else if ¬ SignalsOptInRBF wtx.tx then .error .notReplaceable
    else if wtx.replacedBy.isSome then .error .alreadyBumped
    else if ¬ env.isAllFromMe wtx.tx then .error .foreignInputs
    else
      match resolveChangeOutput env wtx.tx outIdx with
      | .error e => .error e
      | .ok nOutput =>
        match validateTotalFee env.maxTxFee totalFeeOpt with
        | .error e => .error e
        | .ok totalFee =>
          if env.hasWalletSpend then .error .descendantInWallet
          else if env.mempoolHasDescendants then .error .descendantInMempool
          else
            match determineNewFee
                (mkFeeRate (bumpOldFee env wtx.tx) (env.vsize wtx.tx))
                env.minRelayFee env.payTxFee env.smartFee env.fallbackFee
                (env.vsize wtx.tx)
                (env.vsize wtx.tx + (wtx.tx.vin.length : Rat)) totalFee with
            | .error e => .error e
            | .ok (nNewFee, nNewFeeRate) =>
              bumpFinish env w hash wtx nOutput nNewFee nNewFeeRate

/-- Whether an `Except` value is a success. -/
def exceptOk {ε α : Type} : Except ε α → Bool
  | .ok _ => true
  | .error _ => false

/-- The new transaction of a `bumpfee` outcome (an empty transaction on
failure). -/
def bumpResTx (r : Except BumpErr BumpResult) : Tx :=
  match r with
  | .ok res => res.newTx
  | .error _ => ⟨[], []⟩

/-- The wallet after a `bumpfee` outcome (the original wallet on failure). -/
def bumpResWallet (r : Except BumpErr BumpResult) (w0 : Wallet) : Wallet :=
  match r with
  | .ok res => res.wallet
  | .error _ => w0

/-- The reported old fee of a `bumpfee` outcome (zero on failure). -/
def bumpResOldFee (r : Except BumpErr BumpResult) : Rat :=
  match r with
  | .ok res => res.oldFee
  | .error _ => 0

/-- The reported new fee of a `bumpfee` outcome (zero on failure). -/
def bumpResNewFee (r : Except BumpErr BumpResult) : Rat :=
  match r with
  | .ok res => res.newFee
  | .error _ => 0

/-- The old fee-rate of a `bumpfee` outcome (zero on failure). -/
def bumpResOldFeeRate (r : Except BumpErr BumpResult) : Rat :=
  match r with
  | .ok res => res.oldFeeRate
  | .error _ => 0

/-- The new fee-rate of a `bumpfee` outcome (zero on failure). -/
def bumpResNewFeeRate (r : Except BumpErr BumpResult) : Rat :=
  match r with
  | .ok res => res.newFeeRate
  | .error _ => 0

/-- The fee delta of a `bumpfee` outcome (zero on failure). -/
def bumpResDelta (r : Except BumpErr BumpResult) : Rat :=
  match r with
  | .ok res => res.delta
  | .error _ => 0

/-! ### Sweep engine (`sweepprivkeys`, source lines 1021-1167)

Amounts here are integers: the source iterates on the `CAmount` (int64) value
of the single consolidated output, and the convergence argument rests on that
integrality. -/

/-- One outcome of the fee/value convergence loop of `sweepprivkeys`: the dust
throw, a signing failure, or the break with the final output value. -/
inductive SweepLoopResult where
  | dust
  | signFail
  | done (value : Int)
deriving DecidableEq

/-- The fee/value convergence loop of `sweepprivkeys` (source lines
1132-1150), with explicit fuel.  Each iteration checks the single output for
dust (`IsDust` of the minimum relay rate, modelled by the bound `dustBound`
on the fresh output's script), signs every input (the whole signing pass
modelled as a predicate of the only varying datum, the output value), and
either breaks when the needed fee is covered by `totalIn - value` or
reassigns the value to `totalIn - fee`. -/
def sweepLoopFuel (totalIn dustBound : Int) (feeNeeded : Int → Int)
    (signOk : Int → Bool) : Nat → Int → Option SweepLoopResult
  | 0, _ => none
  | fuel + 1, v =>
    if v < dustBound then some .dust
    else if ¬ signOk v then some .signFail
    else if feeNeeded v ≤ totalIn - v then some (.done v)
    else sweepLoopFuel totalIn dustBound feeNeeded signOk fuel (totalIn - feeNeeded v)

/-- The environment of one `sweepprivkeys` call: the scanned outputs matching
the supplied keys' scripts and the external services (key reservation,
`GetMinimumFee`, signing, mempool acceptance), all declared outside this file
and modelled from the spec as opaque parameters. -/
structure SweepEnv where
  reserveOk : Bool
  coinValues : List Int
  dustBound : Int
  feeNeeded : Int → Int
  signOk : Int → Bool
  acceptOk : Bool

/-- The distinct failures of `sweepprivkeys`, one per `throw` site;
`fuelExhausted` is the artefact of the fuelled loop and is proved
unreachable for the fuel `sweepprivkeys` supplies. -/
inductive SweepErr where
  | keypoolRanOut
  | noValueToSweep
  | dust
  | signFailed
  | rejected
  | fuelExhausted
deriving DecidableEq

/-- The outcome of `sweepprivkeys`: the result and whether the transaction
was handed to the acceptance/broadcast service. -/
structure SweepOutcome where
  result : Except SweepErr Int
  submitted : Bool

/-- The summed value of the scanned outputs (`nTotalIn`). -/
def sweepTotalIn (env : SweepEnv) : Int :=
  env.coinValues.foldr (· + ·) 0

/-- The `sweepprivkeys` RPC (source lines 1021-1167): reserve a fresh key,
scan for matching unspent outputs, fail when their summed value is zero,
create the single consolidated output at `totalIn` and run the fee/value
convergence loop, then submit.  The loop fuel `(totalIn - dustBound).toNat + 2`
is proved sufficient, so `fuelExhausted` is unreachable. -/
def sweepprivkeys (env : SweepEnv) : SweepOutcome :=
  if ¬ env.reserveOk then ⟨.error .keypoolRanOut, false⟩
  else
    let totalIn := sweepTotalIn env
    if totalIn = 0 then ⟨.error .noValueToSweep, false⟩
    else
      match sweepLoopFuel totalIn env.dustBound env.feeNeeded env.signOk
          ((totalIn - env.dustBound).toNat + 2) totalIn with
      | none => ⟨.error .fuelExhausted, false⟩
      | some .dust => ⟨.error .dust, false⟩
      | some .signFail => ⟨.error .signFailed, false⟩
      | some (.done v) =>
        if env.acceptOk then ⟨.ok v, true⟩ else ⟨.error .rejected, true⟩

/-! ### Funding orchestrator (`fundrawtransaction`, source lines 2759-2901) -/

/-- The distinct failures of `fundrawtransaction` after decoding: an empty
output list, an out-of-bounds pinned change position, and the coin-selection
service's failure surfaced with its reason string. -/
inductive FundErr where
  | noOutputs
  | changePositionOutOfBounds
  | internalError (reason : String)
deriving DecidableEq

/-- The `fundrawtransaction` RPC core (source lines 2876-2901): require at
least one output, bounds-check a pinned change position, then invoke the
coin-selection/funding service (`CWallet::FundTransaction`, declared outside
this file and modelled from the spec as an opaque service) exactly once; on
failure the service's reason is surfaced verbatim
(`throw JSONRPCError(RPC_INTERNAL_ERROR, strFailReason)`). -/
def fundrawtransaction (origTx : Tx) (changePosOpt : Option Int)
    (fund : Tx → Except String (Tx × Rat × Int)) :
    Except FundErr (Tx × Rat × Int) :=
  if origTx.vout.length = 0 then .error .noOutputs
  else
    let changePosition := changePosOpt.getD (-1)
    if changePosition ≠ -1 ∧
        (changePosition < 0 ∨ changePosition > (origTx.vout.length : Int)) then
      .error .changePositionOutOfBounds
    else
      match fund origTx with
      | .error reason => .error (.internalError reason)
      | .ok res => .ok res

/-! ### Coin-lock registry (`lockunspent` / `listlockunspent`, source lines
2377-2508) -/

/-- An outpoint: transaction id and output index. -/
abbrev Outpoint := Nat × Nat

/-- Modelled from the spec: `CWallet::LockCoin` is declared outside this
file; the registry is an in-memory set of outpoints and locking inserts into
it.  The set is carried as a duplicate-free list. -/
def LockCoin (s : List Outpoint) (o : Outpoint) : List Outpoint :=
  if o ∈ s then s else s ++ [o]

/-- Modelled from the spec: `CWallet::UnlockCoin` is declared outside this
file; unlocking erases the outpoint from the registry. -/
def UnlockCoin (s : List Outpoint) (o : Outpoint) : List Outpoint :=
  s.erase o

/-- Modelled from the spec: `CWallet::ListLockedCoins` is declared outside
this file; it reports the registry's outpoints. -/
def ListLockedCoins (s : List Outpoint) : List Outpoint := s

/-- The `lockunspent` RPC core (source lines 2412-2456): apply
`UnlockCoin`/`LockCoin` to each supplied outpoint according to the unlock
flag, and return `true`. -/
def lockunspent (unlockFlag : Bool) (outs : List Outpoint)
    (s : List Outpoint) : Bool × List Outpoint :=
  (true, outs.foldl (fun acc o => if unlockFlag then UnlockCoin acc o else LockCoin acc o) s)

/-- The `listlockunspent` RPC (source lines 2459-2508): report the locked
outpoints. -/
def listlockunspent (s : List Outpoint) : List Outpoint :=
  ListLockedCoins s

/-! ### Concrete instances used to exercise the definitions -/

/-- Corresponding inputs of the original and the bumped transaction carry the
same previous outpoint and the same sequence number. -/
def sameInputFrame (a b : TxIn) : Prop :=
  a.prevoutHash = b.prevoutHash ∧ a.prevoutN = b.prevoutN ∧ a.nSequence = b.nSequence

/-- A concrete unconfirmed transaction: one opt-in-RBF input (sequence 0),
a payee output of 50 and a change output of 40. -/
def demoTx : Tx := ⟨[⟨7, 0, 0, 0⟩], [⟨50, 1⟩, ⟨40, 2⟩]⟩

/-- The wallet record of `demoTx`: depth zero, not replaced. -/
def demoWalletTx : WalletTx := ⟨demoTx, 0, none, none⟩

/-- A wallet holding `demoTx` under txid 1. -/
def demoWallet : Wallet := fun h => if h = 1 then some demoWalletTx else none

/-- The record of `demoTx` already carrying a replaced-by annotation. -/
def replacedWalletTx : WalletTx := ⟨demoTx, 0, some 5, none⟩

/-- A wallet holding the already-replaced record under txid 1. -/
def replacedWallet : Wallet := fun h => if h = 1 then some replacedWalletTx else none

/-- A concrete environment for `bumpfee`: script 2 is change, everything is
wallet-owned, every transaction has virtual size 100 and a debit exceeding
its output value by 10 (old fee 10), the minimum relay rate is 1/10 and all
the automatic rate sources are zero, so the floored automatic rate is
1/10 + 1/10. -/
def demoEnv : BumpEnv :=
  { isChange := fun o => o.scriptPubKey == 2
    isAllFromMe := fun _ => true
    hasWalletSpend := false
    mempoolHasDescendants := false
    vsize := fun _ => 100
    debit := fun t => txValueOut t + 10
    payTxFee := 0
    smartFee := 0
    fallbackFee := 0
    minRelayFee := 1/10
    mempoolMinFee := 0
    maxTxFee := 1000000
    dustThreshold := fun _ => 5
    sign := fun _ => .ok 42
    commitOk := true
    newTxid := 99 }

/-! ## Helper lemmas -/

lemma exceptOk_iff {ε α : Type} (x : Except ε α) : exceptOk x = true ↔ ∃ a, x = .ok a := by
  cases x <;> simp [exceptOk]

lemma mkFeeRate_pos_size {fee size : Rat} (h : 0 < size) : mkFeeRate fee size = fee / size := by
  unfold mkFeeRate
  rw [if_pos h]

lemma bumpNewRate_ge (oldRate R pay smart fall : Rat) :
    oldRate + R ≤ bumpNewRate oldRate R pay smart fall := by
  unfold bumpNewRate
  split
  · exact le_refl _
  · rename_i h
    exact le_of_not_lt h

lemma determineNewFee_pos {S I R oldFee pay smart fall tf f r : Rat}
    (hS : 0 < S) (hI : 0 ≤ I) (hF : 0 ≤ oldFee) (hR : 0 < R)
    (hdet : determineNewFee (mkFeeRate oldFee S) R pay smart fall S (S + I) tf = .ok (f, r)) :
    oldFee < f ∧ mkFeeRate oldFee S + R ≤ r := by
  rw [mkFeeRate_pos_size hS] at hdet ⊢
  have hSI : 0 < S + I := by linarith
  have hbase : oldFee ≤ oldFee / S * (S + I) := by
    rw [div_mul_eq_mul_div, le_div_iff₀ hS]
    nlinarith
  unfold determineNewFee at hdet
  split at hdet
  · split at hdet
    · exact Except.noConfusion hdet
    · rename_i hge
      simp only [getFee, not_lt] at hge
      injection hdet with hpair
      have hf : tf = f := congrArg Prod.fst hpair
      have hr2 : mkFeeRate tf S = r := congrArg Prod.snd hpair
      subst hf
      constructor
      · nlinarith [mul_pos hR hSI]
      · rw [← hr2, mkFeeRate_pos_size hS, le_div_iff₀ hS]
        have hexp : (oldFee / S + R) * S = oldFee + R * S := by
          field_simp
        rw [hexp]
        nlinarith [mul_nonneg hR.le hI]
  · injection hdet with hpair
    have hf : getFee (bumpNewRate (oldFee / S) R pay smart fall) (S + I) = f :=
      congrArg Prod.fst hpair
    have hr2 : bumpNewRate (oldFee / S) R pay smart fall = r := congrArg Prod.snd hpair
    have hfloor := bumpNewRate_ge (oldFee / S) R pay smart fall
    constructor
    · rw [← hf]
      simp only [getFee]
      nlinarith [mul_le_mul_of_nonneg_right hfloor hSI.le, mul_pos hR hSI]
    · rw [← hr2]
      exact hfloor

lemma findChangeAux_ne_assert (c : TxOut → Bool) :
    ∀ (l : List TxOut) (i : Nat) (acc : Option Nat),
      findChangeAux c l i acc ≠ .error .assertDeltaViolated := by
  intro l
  induction l with
  | nil =>
    intro i acc
    cases acc <;> simp [findChangeAux]
  | cons o rest ih =>
    intro i acc
    simp only [findChangeAux]
    split
    · cases acc with
      | none => exact ih _ _
      | some m => simp
    · exact ih _ _

lemma resolveChangeOutput_ne_assert (env : BumpEnv) (t : Tx) (oi : Option Int) :
    resolveChangeOutput env t oi ≠ .error .assertDeltaViolated := by
  cases oi with
  | none => exact findChangeAux_ne_assert _ _ _ _
  | some n =>
    simp only [resolveChangeOutput]
    split
    · simp
    · split
      · simp
      · split <;> simp

lemma validateTotalFee_ne_assert (m : Rat) (o : Option Rat) :
    validateTotalFee m o ≠ .error .assertDeltaViolated := by
  cases o with
  | none => simp [validateTotalFee]
  | some tf =>
    simp only [validateTotalFee]
    split
    · simp
    · split <;> simp

lemma determineNewFee_ne_assert (a b c d e f g h : Rat) :
    determineNewFee a b c d e f g h ≠ .error .assertDeltaViolated := by
  unfold determineNewFee
  split
  · split <;> simp
  · simp

lemma signInputsAux_ne_assert (sign : Nat → SignOutcome) :
    ∀ (l : List TxIn) (i : Nat), signInputsAux sign l i ≠ .error .assertDeltaViolated := by
  intro l
  induction l with
  | nil =>
    intro i
    simp [signInputsAux]
  | cons a rest ih =>
    intro i
    simp only [signInputsAux]
    cases hs : sign i with
    | fail => simp
    | skip =>
      cases hr : signInputsAux sign rest (i + 1) with
      | error e =>
        simp only [hr]
        intro hc
        exact ih (i + 1) (hr.trans hc)
      | ok l3 => simp [hr]
    | ok s =>
      cases hr : signInputsAux sign rest (i + 1) with
      | error e =>
        simp only [hr]
        intro hc
        exact ih (i + 1) (hr.trans hc)
      | ok l3 => simp [hr]

lemma signInputsAux_frame (sign : Nat → SignOutcome) :
    ∀ (l : List TxIn) (i : Nat) (l2 : List TxIn), signInputsAux sign l i = .ok l2 →
      List.Forall₂ sameInputFrame l l2 := by
  intro l
  induction l with
  | nil =>
    intro i l2 h
    simp only [signInputsAux] at h
    injection h with h2
    subst h2
    exact List.Forall₂.nil
  | cons a rest ih =>
    intro i l2 h
    simp only [signInputsAux] at h
    cases hs : sign i with
    | fail =>
      rw [hs] at h
      exact Except.noConfusion h
    | skip =>
      rw [hs] at h
      cases hr : signInputsAux sign rest (i + 1) with
      | error e =>
        rw [hr] at h
        exact Except.noConfusion h
      | ok l3 =>
        rw [hr] at h
        injection h with h2
        subst h2
        exact List.Forall₂.cons ⟨rfl, rfl, rfl⟩ (ih _ _ hr)
    | ok s =>
      rw [hs] at h
      cases hr : signInputsAux sign rest (i + 1) with
      | error e =>
        rw [hr] at h
        exact Except.noConfusion h
      | ok l3 =>
        rw [hr] at h
        injection h with h2
        subst h2
        exact List.Forall₂.cons ⟨rfl, rfl, rfl⟩ (ih _ _ hr)

lemma forall₂_signals {l l2 : List TxIn} (h : List.Forall₂ sameInputFrame l l2)
    (vout vout2 : List TxOut) : SignalsOptInRBF ⟨l2, vout2⟩ = SignalsOptInRBF ⟨l, vout⟩ := by
  unfold SignalsOptInRBF
  simp only
  induction h with
  | nil => rfl
  | cons hab hrest ih =>
    rename_i a b l1 l2x
    simp only [List.any_cons, ih, hab.2.2]

/-! ## Claim theorems -/

/-- C9: `lockunspent` is idempotent: locking an already-locked outpoint and
unlocking an outpoint that is not locked both succeed (return `true`) and
leave the registry, as observed through `listlockunspent`, unchanged. -/
theorem lockunspent_idempotent (s : List Outpoint) (o : Outpoint) :
    (o ∈ s → lockunspent false [o] s = (true, s) ∧
      listlockunspent (lockunspent false [o] s).2 = listlockunspent s) ∧
    (o ∉ s → lockunspent true [o] s = (true, s) ∧
      listlockunspent (lockunspent true [o] s).2 = listlockunspent s) := by
  constructor
  · intro h
    have heq : lockunspent false [o] s = (true, s) := by
      simp [lockunspent, LockCoin, h]
    exact ⟨heq, by rw [heq]⟩
  · intro h
    have heq : lockunspent true [o] s = (true, s) := by
      simp [lockunspent, UnlockCoin, List.erase_of_not_mem h]
    exact ⟨heq, by rw [heq]⟩

/-- Witness for C9 at the concrete registry `[(1, 0)]`: locking the locked
outpoint `(1, 0)` and unlocking the unlocked outpoint `(2, 1)` are no-ops. -/
theorem lockunspent_idempotent_witness :
    (lockunspent false [(1, 0)] [(1, 0)] = (true, [(1, 0)]) ∧
      listlockunspent (lockunspent false [(1, 0)] [(1, 0)]).2 =
        listlockunspent [(1, 0)]) ∧
    (lockunspent true [(2, 1)] [(1, 0)] = (true, [(1, 0)]) ∧
      listlockunspent (lockunspent true [(2, 1)] [(1, 0)]).2 =
        listlockunspent [(1, 0)]) :=
  ⟨(lockunspent_idempotent [(1, 0)] (1, 0)).1 (by decide),
   (lockunspent_idempotent [(1, 0)] (2, 1)).2 (by decide)⟩

/-- C8: when the coin-selection/funding service fails, `fundrawtransaction`
surfaces the service's reason verbatim as the error payload. -/
theorem fundrawtransaction_verbatim_reason (origTx : Tx) (posOpt : Option Int)
    (fund : Tx → Except String (Tx × Rat × Int)) (reason : String)
    (hout : ¬ origTx.vout.length = 0)
    (hpos : ¬ (posOpt.getD (-1) ≠ -1 ∧
      (posOpt.getD (-1) < 0 ∨ posOpt.getD (-1) > (origTx.vout.length : Int))))
    (hfund : fund origTx = .error reason) :
    fundrawtransaction origTx posOpt fund = .error (.internalError reason) := by
  unfold fundrawtransaction
  rw [if_neg hout, if_neg hpos, hfund]

/-- Witness for C8: a one-output transaction, no pinned change position, and
a selector that fails with "Insufficient funds". -/
theorem fundrawtransaction_verbatim_reason_witness :
    fundrawtransaction ⟨[], [⟨5, 1⟩]⟩ none (fun _ => .error "Insufficient funds") =
      .error (.internalError "Insufficient funds") :=
  fundrawtransaction_verbatim_reason ⟨[], [⟨5, 1⟩]⟩ none
    (fun _ => .error "Insufficient funds") "Insufficient funds"
    (by decide) (by decide) rfl

/-- C3 counterexample: when the change value reduced by the delta equals the
dust threshold exactly (40 - 20 at threshold 20), the code drops the output
(the comparison is `<=`), although the reduced value is not strictly below
the threshold — the claim predicts it is kept. -/
theorem bumpAdjustChange_equal_threshold_dropped :
    (bumpAdjustChange [⟨10, 1⟩, ⟨40, 2⟩] 1 20 (fun _ => 20)).2.length = 1 ∧
    ¬ ((40 : Rat) - 20 < 20) := by
  constructor
  · norm_num [bumpAdjustChange, List.eraseIdx]
  · norm_num

/-- C3 (amended): after the delta is subtracted from the designated change
output, the output is dropped (value folded into the fee, one fewer output)
exactly when the reduced value is less than or equal to its dust threshold;
in particular a reduced value equal to the threshold minus one unit is
dropped, and a reduced value strictly above the threshold is kept with only
its value changed. -/
theorem bumpAdjustChange_drop_iff (vout : List TxOut) (n : Nat) (delta : Rat)
    (dust : Nat → Rat) (o : TxOut) (h : vout.get? n = some o) :
    (o.nValue - delta ≤ dust o.scriptPubKey →
      bumpAdjustChange vout n delta dust = (o.nValue - delta, vout.eraseIdx n) ∧
      (bumpAdjustChange vout n delta dust).2.length = vout.length - 1) ∧
    (dust o.scriptPubKey < o.nValue - delta →
      bumpAdjustChange vout n delta dust =
        (0, vout.set n ⟨o.nValue - delta, o.scriptPubKey⟩) ∧
      (bumpAdjustChange vout n delta dust).2.length = vout.length) := by
  have hn : n < vout.length := (List.get?_eq_some.mp h).1
  constructor
  · intro hle
    have heq : bumpAdjustChange vout n delta dust = (o.nValue - delta, vout.eraseIdx n) := by
      unfold bumpAdjustChange
      rw [h]
      simp [hle]
    refine ⟨heq, ?_⟩
    rw [heq]
    simp [List.length_eraseIdx, hn]
  · intro hlt
    have heq : bumpAdjustChange vout n delta dust =
        (0, vout.set n ⟨o.nValue - delta, o.scriptPubKey⟩) := by
      unfold bumpAdjustChange
      rw [h]
      simp [not_le.mpr hlt]
    refine ⟨heq, ?_⟩
    rw [heq]
    simp

/-- Witness for C3 at a concrete output list: with change value 40, delta 21
and threshold 20 the reduced value 19 (threshold minus one) is dropped,
leaving one output; with delta 5 the reduced value 35 is kept. -/
theorem bumpAdjustChange_drop_iff_witness :
    ((bumpAdjustChange [⟨10, 1⟩, ⟨40, 2⟩] 1 21 (fun _ => 20)).2.length = 1 ∧
      bumpAdjustChange [⟨10, 1⟩, ⟨40, 2⟩] 1 5 (fun _ => 20) =
        (0, [⟨10, 1⟩, ⟨(40 : Rat) - 5, 2⟩])) := by
  constructor
  · exact ((bumpAdjustChange_drop_iff [⟨10, 1⟩, ⟨40, 2⟩] 1 21 (fun _ => 20)
      ⟨40, 2⟩ rfl).1 (by norm_num)).2
  · exact ((bumpAdjustChange_drop_iff [⟨10, 1⟩, ⟨40, 2⟩] 1 5 (fun _ => 20)
      ⟨40, 2⟩ rfl).2 (by norm_num)).1

/-- C2 counterexample: with old rate 1, relay rate 1 and `S' = 102` the bound
is `1·102 + 1·102 = 204`; an explicit total fee of exactly 204 does not
strictly exceed the bound, yet the fee-determination step accepts it (the
source rejects only `totalFee < minTotalFee`). -/
theorem determineNewFee_equal_bound_accepted :
    determineNewFee 1 1 0 0 0 101 102 204 = .ok (204, mkFeeRate 204 101) ∧
    ¬ ((204 : Rat) > getFee 1 102 + getFee 1 102) := by
  constructor
  · norm_num [determineNewFee, getFee]
  · norm_num [getFee]

/-- C2 (amended): a positive explicit total fee is rejected by the
fee-determination step exactly when it is strictly below
`old fee-rate × S' + minimum-relay-fee × S'`; any total fee at or above that
bound is accepted and used directly. -/
theorem determineNewFee_explicit_threshold
    (oldRate R pay smart fall S maxNew tf : Rat) (htf : 0 < tf) :
    (tf < getFee oldRate maxNew + getFee R maxNew →
      determineNewFee oldRate R pay smart fall S maxNew tf = .error .totalFeeTooLow) ∧
    (getFee oldRate maxNew + getFee R maxNew ≤ tf →
      determineNewFee oldRate R pay smart fall S maxNew tf =
        .ok (tf, mkFeeRate tf S)) := by
  constructor
  · intro h
    unfold determineNewFee
    rw [if_pos htf, if_pos h]
  · intro h
    unfold determineNewFee
    rw [if_pos htf, if_neg (not_lt.mpr h)]

/-- Witness for C2: with old rate 1, relay rate 1 and `S' = 102`, the
explicit total fee 100 is below the bound 204 and is rejected. -/
theorem determineNewFee_explicit_threshold_witness :
    determineNewFee 1 1 0 0 0 101 102 100 = .error .totalFeeTooLow :=
  (determineNewFee_explicit_threshold 1 1 0 0 0 101 102 100 (by norm_num)).1
    (by norm_num [getFee])

lemma sweepLoopFuel_sufficient (totalIn d : Int) (fee : Int → Int)
    (sign : Int → Bool) :
    ∀ (k : Nat) (v : Int), (v - d).toNat ≤ k →
      ∃ r, sweepLoopFuel totalIn d fee sign (k + 2) v = some r := by
  intro k
  induction k with
  | zero =>
    intro v hv
    by_cases h1 : v < d
    · exact ⟨.dust, by simp [sweepLoopFuel, h1]⟩
    · by_cases h2 : sign v = true
      · by_cases h3 : fee v ≤ totalIn - v
        · exact ⟨.done v, by simp [sweepLoopFuel, h1, h2, h3]⟩
        · have hnew : totalIn - fee v < d := by omega
          exact ⟨.dust, by simp [sweepLoopFuel, h1, h2, h3, hnew]⟩
      · exact ⟨.signFail, by simp [sweepLoopFuel, h1, h2]⟩
  | succ k ih =>
    intro v hv
    by_cases h1 : v < d
    · exact ⟨.dust, by simp [sweepLoopFuel, h1]⟩
    · by_cases h2 : sign v = true
      · by_cases h3 : fee v ≤ totalIn - v
        · exact ⟨.done v, by simp [sweepLoopFuel, h1, h2, h3]⟩
        · have hm : (totalIn - fee v - d).toNat ≤ k := by omega
          obtain ⟨r, hr⟩ := ih (totalIn - fee v) hm
          refine ⟨r, ?_⟩
          have hstep : sweepLoopFuel totalIn d fee sign (k + 1 + 2) v =
              sweepLoopFuel totalIn d fee sign (k + 2) (totalIn - fee v) := by
            show sweepLoopFuel totalIn d fee sign ((k + 2) + 1) v = _
            simp [sweepLoopFuel, h1, h2, h3]
          rw [hstep]
          exact hr
      · exact ⟨.signFail, by simp [sweepLoopFuel, h1, h2]⟩

/-- C10: the fee/value convergence loop of `sweepprivkeys` terminates: every
iteration that neither breaks nor throws reassigns the output value to
`totalIn - fee`, which is strictly smaller than the current value, and the
fuel `(v - dustBound).toNat + 2` always suffices for the loop to end in a
break, a dust error or a signing error. -/
theorem sweepLoop_decrease_and_terminates :
    (∀ (totalIn d : Int) (fee : Int → Int) (sign : Int → Bool) (fuel : Nat) (v : Int),
      ¬ v < d → sign v = true → ¬ fee v ≤ totalIn - v →
      sweepLoopFuel totalIn d fee sign (fuel + 1) v =
        sweepLoopFuel totalIn d fee sign fuel (totalIn - fee v) ∧
      totalIn - fee v < v) ∧
    (∀ (totalIn d : Int) (fee : Int → Int) (sign : Int → Bool) (v : Int),
      ∃ r, sweepLoopFuel totalIn d fee sign ((v - d).toNat + 2) v = some r) := by
  constructor
  · intro totalIn d fee sign fuel v h1 h2 h3
    constructor
    · simp [sweepLoopFuel, h1, h2, h3]
    · omega
  · intro totalIn d fee sign v
    exact sweepLoopFuel_sufficient totalIn d fee sign ((v - d).toNat) v (le_refl _)

/-- Witness for C10 at `totalIn = 100`, dust bound 50, constant needed fee
60: the first iteration reassigns the value from 100 to 40, a strict
decrease. -/
theorem sweepLoop_decrease_and_terminates_witness :
    sweepLoopFuel 100 50 (fun _ => 60) (fun _ => true) 6 100 =
      sweepLoopFuel 100 50 (fun _ => 60) (fun _ => true) 5 (100 - 60) ∧
    (100 : Int) - 60 < 100 :=
  sweepLoop_decrease_and_terminates.1 100 50 (fun _ => 60) (fun _ => true) 5 100
    (by decide) rfl (by decide)

/-- C7: `sweepprivkeys` fails with the nothing-to-sweep error whenever the
summed value of the matching unspent outputs is zero, and fails with the
would-be-dust error when the consolidated output's value after the first fee
deduction falls below the dust bound; in both cases the transaction is not
submitted to the acceptance service. -/
theorem sweepprivkeys_zero_and_dust (env : SweepEnv) (hres : env.reserveOk = true) :
    (sweepTotalIn env = 0 → sweepprivkeys env = ⟨.error .noValueToSweep, false⟩) ∧
    (sweepTotalIn env ≠ 0 → sweepTotalIn env < env.dustBound →
      sweepprivkeys env = ⟨.error .dust, false⟩) ∧
    (sweepTotalIn env ≠ 0 →
      ¬ sweepTotalIn env < env.dustBound →
      env.signOk (sweepTotalIn env) = true →
      ¬ env.feeNeeded (sweepTotalIn env) ≤ 0 →
      sweepTotalIn env - env.feeNeeded (sweepTotalIn env) < env.dustBound →
      sweepprivkeys env = ⟨.error .dust, false⟩) := by
  refine ⟨?_, ?_, ?_⟩
  · intro h0
    unfold sweepprivkeys
    rw [if_neg (by simp [hres]), if_pos h0]
  · intro h0 hd
    unfold sweepprivkeys
    rw [if_neg (by simp [hres]), if_neg h0]
    have hloop : sweepLoopFuel (sweepTotalIn env) env.dustBound env.feeNeeded env.signOk
        ((sweepTotalIn env - env.dustBound).toNat + 2) (sweepTotalIn env) =
        some .dust := by
      show sweepLoopFuel (sweepTotalIn env) env.dustBound env.feeNeeded env.signOk
        (((sweepTotalIn env - env.dustBound).toNat + 1) + 1) (sweepTotalIn env) = some .dust
      simp [sweepLoopFuel, hd]
    rw [hloop]
  · intro h0 h1 h2 h3 h4
    unfold sweepprivkeys
    rw [if_neg (by simp [hres]), if_neg h0]
    have hloop : sweepLoopFuel (sweepTotalIn env) env.dustBound env.feeNeeded env.signOk
        ((sweepTotalIn env - env.dustBound).toNat + 2) (sweepTotalIn env) =
        some .dust := by
      have hbreak : ¬ env.feeNeeded (sweepTotalIn env) ≤
          sweepTotalIn env - sweepTotalIn env := by
        rw [sub_self]
        exact h3
      show sweepLoopFuel (sweepTotalIn env) env.dustBound env.feeNeeded env.signOk
        (((sweepTotalIn env - env.dustBound).toNat + 1) + 1) (sweepTotalIn env) = some .dust
      simp only [sweepLoopFuel, if_neg h1, h2, Bool.not_true, if_neg hbreak]
      show sweepLoopFuel (sweepTotalIn env) env.dustBound env.feeNeeded env.signOk
        (((sweepTotalIn env - env.dustBound).toNat) + 1)
        (sweepTotalIn env - env.feeNeeded (sweepTotalIn env)) = some .dust
      simp [sweepLoopFuel, h4]
    rw [hloop]

/-- Witness for C7: an empty match set gives the nothing-to-sweep error; a
30-unit output below the dust bound 50 and a 100-unit output whose value
after the 60-unit fee deduction falls below the bound both give the
would-be-dust error; none of the outcomes is submitted. -/
theorem sweepprivkeys_zero_and_dust_witness :
    sweepprivkeys ⟨true, [], 10, (fun _ => 1), (fun _ => true), true⟩ =
      ⟨.error .noValueToSweep, false⟩ ∧
    sweepprivkeys ⟨true, [30], 50, (fun _ => 1), (fun _ => true), true⟩ =
      ⟨.error .dust, false⟩ ∧
    sweepprivkeys ⟨true, [100], 50, (fun _ => 60), (fun _ => true), true⟩ =
      ⟨.error .dust, false⟩ :=
  ⟨(sweepprivkeys_zero_and_dust ⟨true, [], 10, (fun _ => 1), (fun _ => true), true⟩ rfl).1
      (by decide),
   (sweepprivkeys_zero_and_dust ⟨true, [30], 50, (fun _ => 1), (fun _ => true), true⟩
      rfl).2.1 (by decide) (by decide),
   (sweepprivkeys_zero_and_dust ⟨true, [100], 50, (fun _ => 60), (fun _ => true), true⟩
      rfl).2.2 (by decide) (by decide) rfl (by decide) (by decide)⟩

/-- C4 (code bug): the explicit change-index bounds check of `bumpfee` tests
`nOutput > vout.size()` instead of `>=`.  On the two-output transaction
`demoTx`, the index 2 (equal to the output count) passes the check and the
subsequent `wtx.vout[nOutput]` read is out of range — the call does not fail
with the out-of-bounds error the claim requires but reaches the undefined
out-of-range access; the index 3 is rejected as out of bounds. -/
theorem bumpfee_change_index_bounds_bug :
    bumpfee demoEnv demoWallet 1 (some 2) none = .error .undefinedVoutAccess ∧
    bumpfee demoEnv demoWallet 1 (some 2) none ≠ .error .outputOutOfBounds ∧
    bumpfee demoEnv demoWallet 1 (some 3) none = .error .outputOutOfBounds := by
  refine ⟨rfl, ?_, rfl⟩
  intro h
  rw [show bumpfee demoEnv demoWallet 1 (some 2) none = .error .undefinedVoutAccess
    from rfl] at h
  simp at h

lemma walletUpdate_self (w : Wallet) (h : Nat) (v : WalletTx) :
    walletUpdate w h v h = some v := by
  unfold walletUpdate
  exact if_pos rfl

lemma resolveChangeOutput_explicit {env : BumpEnv} {t : Tx} {n : Int} {m : Nat}
    (h : resolveChangeOutput env t (some n) = .ok m) : m = n.toNat := by
  simp only [resolveChangeOutput] at h
  split at h
  · exact Except.noConfusion h
  · split at h
    · exact Except.noConfusion h
    · split at h
      · injection h with h2
        exact h2.symm
      · exact Except.noConfusion h

lemma bumpAssemble_ok_spec {env : BumpEnv} {w : Wallet} {hash : Nat} {wtx : WalletTx}
    {nOutput : Nat} {nNewFee nNewFeeRate : Rat} {newVin : List TxIn} {res : BumpResult}
    (hw : w hash = some wtx) (hdepth : wtx.depth = 0)
    (hrbf : SignalsOptInRBF wtx.tx = true)
    (hsign : signInputsAux env.sign wtx.tx.vin 0 = .ok newVin)
    (hok : bumpAssemble env w hash wtx nOutput nNewFee nNewFeeRate newVin = .ok res) :
    env.commitOk = true ∧
    res.newTxid = env.newTxid ∧
    res.oldFee = bumpOldFee env wtx.tx ∧
    res.delta = nNewFee - bumpOldFee env wtx.tx ∧
    res.newFee = nNewFee + (bumpAdjustChange wtx.tx.vout nOutput
      (nNewFee - bumpOldFee env wtx.tx) env.dustThreshold).1 ∧
    res.oldFeeRate = mkFeeRate (bumpOldFee env wtx.tx) (env.vsize wtx.tx) ∧
    res.newFeeRate = nNewFeeRate ∧
    res.newTx = ⟨newVin, (bumpAdjustChange wtx.tx.vout nOutput
      (nNewFee - bumpOldFee env wtx.tx) env.dustThreshold).2⟩ ∧
    (∃ marked, res.wallet hash = some marked ∧ marked.depth = 0 ∧
      SignalsOptInRBF marked.tx = true ∧ marked.replacedBy = some env.newTxid) := by
  unfold bumpAssemble at hok
  split at hok
  · exact Except.noConfusion hok
  rename_i hcommit
  split at hok
  · exact Except.noConfusion hok
  rename_i orig horig
  injection hok with hres2
  subst hres2
  refine ⟨not_not.mp hcommit, rfl, rfl, rfl, rfl, rfl, rfl, rfl, ?_⟩
  have horigfacts : orig.depth = 0 ∧ SignalsOptInRBF orig.tx = true := by
    unfold walletUpdate at horig
    by_cases hh : hash = env.newTxid
    · rw [if_pos hh] at horig
      injection horig with h2
      subst h2
      refine ⟨rfl, ?_⟩
      show SignalsOptInRBF ⟨newVin, _⟩ = true
      rw [forall₂_signals (signInputsAux_frame env.sign wtx.tx.vin 0 newVin hsign) wtx.tx.vout _]
      exact hrbf
    · rw [if_neg hh, hw] at horig
      injection horig with h2
      subst h2
      exact ⟨hdepth, hrbf⟩
  exact ⟨{ orig with replacedBy := some env.newTxid }, walletUpdate_self _ _ _,
    horigfacts.1, horigfacts.2, rfl⟩

lemma bumpFinish_ok_spec {env : BumpEnv} {w : Wallet} {hash : Nat} {wtx : WalletTx}
    {nOutput : Nat} {nNewFee nNewFeeRate : Rat} {res : BumpResult}
    (hok : bumpFinish env w hash wtx nOutput nNewFee nNewFeeRate = .ok res) :
    ∃ poutput newVin,
      ¬ nNewFeeRate < env.mempoolMinFee ∧
      0 < nNewFee - bumpOldFee env wtx.tx ∧
      wtx.tx.vout.get? nOutput = some poutput ∧
      ¬ poutput.nValue < nNewFee - bumpOldFee env wtx.tx ∧
      signInputsAux env.sign wtx.tx.vin 0 = .ok newVin ∧
      bumpAssemble env w hash wtx nOutput nNewFee nNewFeeRate newVin = .ok res := by
  unfold bumpFinish at hok
  split at hok
  · exact Except.noConfusion hok
  rename_i hmem
  split at hok
  · exact Except.noConfusion hok
  rename_i hdeltane
  split at hok
  · exact Except.noConfusion hok
  rename_i poutput hget
  split at hok
  · exact Except.noConfusion hok
  rename_i hsmall
  split at hok
  · exact Except.noConfusion hok
  rename_i newVin hsign
  exact ⟨poutput, newVin, hmem, not_not.mp hdeltane, hget, hsmall, hsign, hok⟩

lemma bumpfee_ok_spec {env : BumpEnv} {w : Wallet} {hash : Nat} {outIdx : Option Int}
    {tfOpt : Option Rat} {res : BumpResult}
    (hok : bumpfee env w hash outIdx tfOpt = .ok res) :
    ∃ wtx nOutput poutput tfv nNewFee nNewFeeRate newVin,
      w hash = some wtx ∧
      wtx.depth = 0 ∧
      SignalsOptInRBF wtx.tx = true ∧
      wtx.replacedBy = none ∧
      resolveChangeOutput env wtx.tx outIdx = .ok nOutput ∧
      validateTotalFee env.maxTxFee tfOpt = .ok tfv ∧
      determineNewFee (mkFeeRate (bumpOldFee env wtx.tx) (env.vsize wtx.tx))
        env.minRelayFee env.payTxFee env.smartFee env.fallbackFee (env.vsize wtx.tx)
        (env.vsize wtx.tx + (wtx.tx.vin.length : Rat)) tfv = .ok (nNewFee, nNewFeeRate) ∧
      ¬ nNewFeeRate < env.mempoolMinFee ∧
      0 < nNewFee - bumpOldFee env wtx.tx ∧
      wtx.tx.vout.get? nOutput = some poutput ∧
      ¬ poutput.nValue < nNewFee - bumpOldFee env wtx.tx ∧
      signInputsAux env.sign wtx.tx.vin 0 = .ok newVin ∧
      env.commitOk = true ∧
      res.newTxid = env.newTxid ∧
      res.oldFee = bumpOldFee env wtx.tx ∧
      res.delta = nNewFee - bumpOldFee env wtx.tx ∧
      res.newFee = nNewFee + (bumpAdjustChange wtx.tx.vout nOutput
        (nNewFee - bumpOldFee env wtx.tx) env.dustThreshold).1 ∧
      res.oldFeeRate = mkFeeRate (bumpOldFee env wtx.tx) (env.vsize wtx.tx) ∧
      res.newFeeRate = nNewFeeRate ∧
      res.newTx = ⟨newVin, (bumpAdjustChange wtx.tx.vout nOutput
        (nNewFee - bumpOldFee env wtx.tx) env.dustThreshold).2⟩ ∧
      (∃ marked, res.wallet hash = some marked ∧ marked.depth = 0 ∧
        SignalsOptInRBF marked.tx = true ∧ marked.replacedBy = some env.newTxid) := by
  unfold bumpfee at hok
  split at hok
  · exact Except.noConfusion hok
  rename_i wtx hw
  split at hok
  · exact Except.noConfusion hok
  rename_i hdepthne
  split at hok
  · exact Except.noConfusion hok
  rename_i hrbfne
  split at hok
  · exact Except.noConfusion hok
  rename_i hrepne
  split at hok
  · exact Except.noConfusion hok
  rename_i hmine
  split at hok
  · exact Except.noConfusion hok
  rename_i nOutput hres
  split at hok
  · exact Except.noConfusion hok
  rename_i tfv hval
  split at hok
  · exact Except.noConfusion hok
  rename_i hspend
  split at hok
  · exact Except.noConfusion hok
  rename_i hdesc
  split at hok
  · exact Except.noConfusion hok
  rename_i nNewFee nNewFeeRate hdet
  have hdepth : wtx.depth = 0 := not_ne_iff.mp hdepthne
  have hrbf : SignalsOptInRBF wtx.tx = true := not_not.mp hrbfne
  have hrep : wtx.replacedBy = none := Option.not_isSome_iff_eq_none.mp hrepne
  obtain ⟨poutput, newVin, hmem, hdelta, hget, hsmall, hsign, hasm⟩ := bumpFinish_ok_spec hok
  obtain ⟨hcommit, hid, hofee, hdel, hnfee, horate, hnrate, htx, hmarked⟩ :=
    bumpAssemble_ok_spec hw hdepth hrbf hsign hasm
  exact ⟨wtx, nOutput, poutput, tfv, nNewFee, nNewFeeRate, newVin, hw, hdepth, hrbf,
    hrep, hres, hval, hdet, hmem, hdelta, hget, hsmall, hsign, hcommit,
    hid, hofee, hdel, hnfee, horate, hnrate, htx, hmarked⟩

lemma demo_bumpfee_ok : exceptOk (bumpfee demoEnv demoWallet 1 (some 1) none) = true := by
  norm_num [bumpfee, bumpFinish, bumpAssemble, bumpOldFee, exceptOk, demoEnv, demoWallet,
    demoWalletTx, demoTx, resolveChangeOutput, validateTotalFee, determineNewFee,
    bumpNewRate, bumpRateCandidate, mkFeeRate, getFee, txValueOut, bumpAdjustChange,
    signInputsAux, SignalsOptInRBF, walletUpdate]

lemma bumpAssemble_ne_assert (env : BumpEnv) (w : Wallet) (hash : Nat) (wtx : WalletTx)
    (nOutput : Nat) (nNewFee nNewFeeRate : Rat) (newVin : List TxIn) :
    bumpAssemble env w hash wtx nOutput nNewFee nNewFeeRate newVin ≠
      .error .assertDeltaViolated := by
  unfold bumpAssemble
  split
  · simp
  · split
    · simp
    · simp

lemma bumpFinish_ne_assert {env : BumpEnv} {w : Wallet} {hash : Nat} {wtx : WalletTx}
    {nOutput : Nat} {nNewFee nNewFeeRate : Rat}
    (h : 0 < nNewFee - bumpOldFee env wtx.tx) :
    bumpFinish env w hash wtx nOutput nNewFee nNewFeeRate ≠
      .error .assertDeltaViolated := by
  unfold bumpFinish
  rw [if_neg (not_not_intro h)]
  split
  · simp
  · split
    · simp
    · split
      · simp
      · split
        · rename_i e heq
          intro hc
          simp only [Except.error.injEq] at hc
          subst hc
          exact signInputsAux_ne_assert env.sign wtx.tx.vin 0 heq
        · exact bumpAssemble_ne_assert _ _ _ _ _ _ _ _

/-- C1: under a positive minimum relay rate, positive virtual sizes, and a
nonnegative old fee, `bumpfee` never reaches the `assert(nDelta > 0)` site,
and on success the reported new fee strictly exceeds the old fee, the delta
is strictly positive, and the new fee-rate is at least the old fee-rate plus
the minimum relay rate. -/
theorem bumpfee_fee_monotonicity (env : BumpEnv) (w : Wallet) (hash : Nat)
    (outIdx : Option Int) (tfOpt : Option Rat)
    (hS : ∀ t, 0 < env.vsize t)
    (hF : ∀ t, 0 ≤ bumpOldFee env t)
    (hR : 0 < env.minRelayFee) :
    bumpfee env w hash outIdx tfOpt ≠ .error .assertDeltaViolated ∧
    (exceptOk (bumpfee env w hash outIdx tfOpt) = true →
      bumpResOldFee (bumpfee env w hash outIdx tfOpt) <
        bumpResNewFee (bumpfee env w hash outIdx tfOpt) ∧
      0 < bumpResDelta (bumpfee env w hash outIdx tfOpt) ∧
      bumpResOldFeeRate (bumpfee env w hash outIdx tfOpt) + env.minRelayFee ≤
        bumpResNewFeeRate (bumpfee env w hash outIdx tfOpt)) := by
  constructor
  · intro hbad
    unfold bumpfee at hbad
    split at hbad
    · simp at hbad
    rename_i wtx hw
    split at hbad
    · simp at hbad
    rename_i h1
    split at hbad
    · simp at hbad
    rename_i h2
    split at hbad
    · simp at hbad
    rename_i h3
    split at hbad
    · simp at hbad
    rename_i h4
    split at hbad
    · rename_i e heq
      simp only [Except.error.injEq] at hbad
      subst hbad
      exact resolveChangeOutput_ne_assert env wtx.tx outIdx heq
    rename_i nOutput hres
    split at hbad
    · rename_i e heq
      simp only [Except.error.injEq] at hbad
      subst hbad
      exact validateTotalFee_ne_assert env.maxTxFee tfOpt heq
    rename_i tfv hval
    split at hbad
    · simp at hbad
    rename_i h5
    split at hbad
    · simp at hbad
    rename_i h6
    split at hbad
    · rename_i e heq
      simp only [Except.error.injEq] at hbad
      subst hbad
      exact determineNewFee_ne_assert _ _ _ _ _ _ _ _ heq
    rename_i nNewFee nNewFeeRate hdet
    have hpos := determineNewFee_pos (hS wtx.tx) (Nat.cast_nonneg _) (hF wtx.tx) hR hdet
    exact bumpFinish_ne_assert (by linarith [hpos.1]) hbad
  · intro hek
    obtain ⟨res, hok⟩ := (exceptOk_iff _).mp hek
    obtain ⟨wtx, nOutput, poutput, tfv, f, r, newVin, hw, hdepth, hrbf, hrep, hres,
      hval, hdet, hmem, hdelta, hget, hsmall, hsign, hcommit, hid, hofee, hdel,
      hnfee, horate, hnrate, htx, hmarked⟩ := bumpfee_ok_spec hok
    have hpos := determineNewFee_pos (hS wtx.tx) (Nat.cast_nonneg _) (hF wtx.tx) hR hdet
    have hadj : 0 ≤ (bumpAdjustChange wtx.tx.vout nOutput
        (f - bumpOldFee env wtx.tx) env.dustThreshold).1 := by
      unfold bumpAdjustChange
      rw [hget]
      dsimp only
      split
      · dsimp only
        linarith [not_lt.mp hsmall]
      · dsimp only
        exact le_refl 0
    rw [hok]
    simp only [bumpResOldFee, bumpResNewFee, bumpResOldFeeRate, bumpResNewFeeRate,
      bumpResDelta]
    refine ⟨?_, ?_, ?_⟩
    · rw [hofee, hnfee]
      linarith [hpos.1, hadj]
    · rw [hdel]
      linarith [hpos.1]
    · rw [horate, hnrate]
      exact hpos.2

/-- Witness for C1 at the concrete environment `demoEnv` (old fee 10, floored
automatic rate 1/5): the bump succeeds, the new fee 101/5 exceeds 10, and the
new rate 1/5 is the old rate 1/10 plus the relay rate 1/10. -/
theorem bumpfee_fee_monotonicity_witness :
    exceptOk (bumpfee demoEnv demoWallet 1 (some 1) none) = true ∧
    (bumpResOldFee (bumpfee demoEnv demoWallet 1 (some 1) none) <
      bumpResNewFee (bumpfee demoEnv demoWallet 1 (some 1) none) ∧
     0 < bumpResDelta (bumpfee demoEnv demoWallet 1 (some 1) none) ∧
     bumpResOldFeeRate (bumpfee demoEnv demoWallet 1 (some 1) none) + demoEnv.minRelayFee ≤
       bumpResNewFeeRate (bumpfee demoEnv demoWallet 1 (some 1) none)) :=
  ⟨demo_bumpfee_ok,
   (bumpfee_fee_monotonicity demoEnv demoWallet 1 (some 1) none
      (fun _ => by norm_num [demoEnv])
      (fun t => by norm_num [demoEnv, bumpOldFee])
      (by norm_num [demoEnv])).2 demo_bumpfee_ok⟩

/-- C5: a record carrying a replaced-by annotation makes every `bumpfee` on
it fail (no success is possible), and after any successful bump, a second
`bumpfee` on the same txid against the updated wallet fails with the
already-bumped error. -/
theorem bumpfee_no_double_bump :
    (∀ (env : BumpEnv) (w : Wallet) (hash : Nat) (oi : Option Int) (tf : Option Rat)
      (wtx : WalletTx), w hash = some wtx → wtx.replacedBy.isSome = true →
      exceptOk (bumpfee env w hash oi tf) = false) ∧
    (∀ (env : BumpEnv) (w : Wallet) (hash : Nat) (oi : Option Int) (tf : Option Rat)
      (env2 : BumpEnv) (oi2 : Option Int) (tf2 : Option Rat),
      exceptOk (bumpfee env w hash oi tf) = true →
      bumpfee env2 (bumpResWallet (bumpfee env w hash oi tf) w) hash oi2 tf2 =
        .error .alreadyBumped) := by
  constructor
  · intro env w hash oi tf wtx hw hrep
    cases hex : bumpfee env w hash oi tf with
    | error e => rfl
    | ok res =>
      exfalso
      obtain ⟨wtx0, n0, p0, t0, f0, r0, v0, hw0, hd0, hrbf0, hrep0, -⟩ :=
        bumpfee_ok_spec hex
      rw [hw] at hw0
      injection hw0 with h2
      rw [← h2] at hrep0
      rw [hrep0] at hrep
      simp at hrep
  · intro env w hash oi tf env2 oi2 tf2 hek
    obtain ⟨res, hok⟩ := (exceptOk_iff _).mp hek
    obtain ⟨wtx, n0, p0, t0, f0, r0, v0, hw, hd, hrbf, hrep, hres, hval, hdet, hmem,
      hdelta, hget, hsmall, hsign, hcommit, hid, hofee, hdel, hnfee, horate, hnrate,
      htx, marked, hmw, hmd, hmrbf, hmrep⟩ := bumpfee_ok_spec hok
    rw [hok]
    simp only [bumpResWallet]
    simp only [bumpfee, hmw]
    rw [if_neg (not_ne_iff.mpr hmd), if_neg (not_not_intro hmrbf),
      if_pos (show marked.replacedBy.isSome = true by rw [hmrep]; rfl)]

/-- Witness for C5: the already-replaced record `replacedWalletTx` cannot be
bumped, and after the successful demo bump, bumping txid 1 again fails as
already bumped. -/
theorem bumpfee_no_double_bump_witness :
    exceptOk (bumpfee demoEnv replacedWallet 1 (some 1) none) = false ∧
    bumpfee demoEnv (bumpResWallet (bumpfee demoEnv demoWallet 1 (some 1) none) demoWallet)
      1 (some 1) none = .error .alreadyBumped :=
  ⟨bumpfee_no_double_bump.1 demoEnv replacedWallet 1 (some 1) none replacedWalletTx rfl rfl,
   bumpfee_no_double_bump.2 demoEnv demoWallet 1 (some 1) none demoEnv (some 1) none
     demo_bumpfee_ok⟩

lemma demo_bumpfee_auto_ok : exceptOk (bumpfee demoEnv demoWallet 1 none none) = true := by
  norm_num [bumpfee, bumpFinish, bumpAssemble, bumpOldFee, exceptOk, demoEnv, demoWallet,
    demoWalletTx, demoTx, resolveChangeOutput, findChangeAux, validateTotalFee,
    determineNewFee, bumpNewRate, bumpRateCandidate, mkFeeRate, getFee, txValueOut,
    bumpAdjustChange, signInputsAux, SignalsOptInRBF, walletUpdate]

/-- C6: every successful `bumpfee` — whether the change output was named
explicitly or detected automatically — leaves each input's previous outpoint
and sequence number identical to the original, and its output list is the
original with only the designated change output (the index the
change-output-determination step returned) changed: either its value is
reduced by exactly the fee delta, or it is erased. -/
theorem bumpfee_frame_preservation (env : BumpEnv) (w : Wallet) (hash : Nat)
    (outIdx : Option Int) (tf : Option Rat) (wtx : WalletTx)
    (hw : w hash = some wtx)
    (hek : exceptOk (bumpfee env w hash outIdx tf) = true) :
    List.Forall₂ sameInputFrame wtx.tx.vin
      (bumpResTx (bumpfee env w hash outIdx tf)).vin ∧
    ∃ nOut o, resolveChangeOutput env wtx.tx outIdx = .ok nOut ∧
      wtx.tx.vout.get? nOut = some o ∧
      ((bumpResTx (bumpfee env w hash outIdx tf)).vout =
        wtx.tx.vout.set nOut
          ⟨o.nValue - bumpResDelta (bumpfee env w hash outIdx tf), o.scriptPubKey⟩ ∨
       (bumpResTx (bumpfee env w hash outIdx tf)).vout =
        wtx.tx.vout.eraseIdx nOut) := by
  obtain ⟨res, hok⟩ := (exceptOk_iff _).mp hek
  obtain ⟨wtx0, nOutput, poutput, tfv, f, r, newVin, hw0, hd, hrbf, hrep, hres, hval,
    hdet, hmem, hdelta, hget, hsmall, hsign, hcommit, hid, hofee, hdel, hnfee, horate,
    hnrate, htx, -⟩ := bumpfee_ok_spec hok
  rw [hw] at hw0
  injection hw0 with h2
  subst h2
  rw [hok]
  simp only [bumpResTx, bumpResDelta]
  constructor
  · rw [htx]
    exact signInputsAux_frame env.sign wtx.tx.vin 0 newVin hsign
  · refine ⟨nOutput, poutput, hres, hget, ?_⟩
    rw [htx, hdel]
    unfold bumpAdjustChange
    rw [hget]
    dsimp only
    split
    · right
      rfl
    · left
      rfl

/-- Witness for C6 at the demo bump with no explicit options (the automatic
change-detection path designates index 1): the single input's outpoint and
sequence survive, and the output list is the original with the change output
at index 1 either reduced by the delta or erased. -/
theorem bumpfee_frame_preservation_witness :
    List.Forall₂ sameInputFrame demoWalletTx.tx.vin
      (bumpResTx (bumpfee demoEnv demoWallet 1 none none)).vin ∧
    resolveChangeOutput demoEnv demoWalletTx.tx none = .ok 1 ∧
    demoWalletTx.tx.vout.get? 1 = some ⟨40, 2⟩ ∧
    ((bumpResTx (bumpfee demoEnv demoWallet 1 none none)).vout =
        demoWalletTx.tx.vout.set 1
          ⟨(40 : Rat) - bumpResDelta (bumpfee demoEnv demoWallet 1 none none), 2⟩ ∨
      (bumpResTx (bumpfee demoEnv demoWallet 1 none none)).vout =
        demoWalletTx.tx.vout.eraseIdx 1) := by
  obtain ⟨h1, nOut, o, hres, ho, hcase⟩ :=
    bumpfee_frame_preservation demoEnv demoWallet 1 none none demoWalletTx rfl
      demo_bumpfee_auto_ok
  have hres1 : resolveChangeOutput demoEnv demoWalletTx.tx none = .ok 1 := rfl
  have hn : nOut = 1 := by
    have h3 := hres.symm.trans hres1
    injection h3
  subst hn
  have he : demoWalletTx.tx.vout.get? 1 = some (⟨40, 2⟩ : TxOut) := rfl
  have ho2 : o = (⟨40, 2⟩ : TxOut) := by
    have h3 := ho.symm.trans he
    injection h3
  subst ho2
  exact ⟨h1, hres1, ho, hcase⟩

end WalletRpc
